import Mathlib

set_option maxRecDepth 8192

/-!
Verification of the document ingestion pipeline of the poc-backend
repository (`app/utils/file_parser.py`), shallowly embedded in Lean.

Python strings are modelled as lists of characters (`PyStr`), byte
buffers as lists of `Fin 256` (`Bytes`).  The standard-library codecs
that `bytes.decode(...)` dispatches to are modelled explicitly: UTF-8
(strict) follows the UTF-8 standard exactly; the CJK double-byte codecs
(gbk / gb2312 / big5) are modelled by the generic two-byte table decoder
`decodeTable` over small fragments of the real mapping tables, which is
sufficient for every concrete input considered here; latin-1 and
iso-8859-1 are the total single-byte codec, and cp1252 is latin-1 with
the 0x80–0x9F block remapped (with its five undefined bytes failing).
-/

namespace FileParser

abbrev Byte := Fin 256
abbrev Bytes := List Byte
abbrev PyStr := List Char

def charOfByte (b : Byte) : Char := Char.ofNat b.val

/-- Whitespace characters recognised by Python's `str.strip()` (the ASCII
ones, which cover every input considered in this development). -/
def isPySpace (c : Char) : Bool :=
  c = ' ' || c = '\t' || c = '\n' || c = '\r' || c = '\x0b' || c = '\x0c'

/-- Models Python `str.strip()`: drop leading and trailing whitespace. -/
def pyStrip (s : PyStr) : PyStr :=
  ((s.dropWhile isPySpace).reverse.dropWhile isPySpace).reverse

/-- A UTF-8 continuation byte (0x80–0xBF). -/
def utf8Cont (b : Byte) : Bool :=
  0x80 ≤ (b : Nat) && (b : Nat) ≤ 0xBF

/-- Strict UTF-8 decoding, as performed by Python's `bytes.decode("utf-8")`:
rejects truncated sequences, stray continuation bytes, overlong encodings,
surrogates and code points above U+10FFFF. -/
def decodeUtf8 : Bytes → Option PyStr
  | [] => some []
  | b :: bs =>
    if (b : Nat) ≤ 0x7F then
      (decodeUtf8 bs).map (fun cs => charOfByte b :: cs)
    else if 0xC2 ≤ (b : Nat) ∧ (b : Nat) ≤ 0xDF then
      match bs with
      | b1 :: bs2 =>
        if utf8Cont b1 then
          (decodeUtf8 bs2).map
            (fun cs => Char.ofNat (((b : Nat) - 0xC0) * 0x40 + ((b1 : Nat) - 0x80)) :: cs)
        else none
      | [] => none
    else if 0xE0 ≤ (b : Nat) ∧ (b : Nat) ≤ 0xEF then
      match bs with
      | b1 :: b2 :: bs3 =>
        if (if (b : Nat) = 0xE0 then 0xA0 else 0x80) ≤ (b1 : Nat) ∧
           (b1 : Nat) ≤ (if (b : Nat) = 0xED then 0x9F else 0xBF) ∧ utf8Cont b2 then
          (decodeUtf8 bs3).map
            (fun cs => Char.ofNat (((b : Nat) - 0xE0) * 0x1000 +
              ((b1 : Nat) - 0x80) * 0x40 + ((b2 : Nat) - 0x80)) :: cs)
        else none
      | _ => none
    else if 0xF0 ≤ (b : Nat) ∧ (b : Nat) ≤ 0xF4 then
      match bs with
      | b1 :: b2 :: b3 :: bs4 =>
        if (if (b : Nat) = 0xF0 then 0x90 else 0x80) ≤ (b1 : Nat) ∧
           (b1 : Nat) ≤ (if (b : Nat) = 0xF4 then 0x8F else 0xBF) ∧
           utf8Cont b2 ∧ utf8Cont b3 then
          (decodeUtf8 bs4).map
            (fun cs => Char.ofNat (((b : Nat) - 0xF0) * 0x40000 +
              ((b1 : Nat) - 0x80) * 0x1000 + ((b2 : Nat) - 0x80) * 0x40 +
              ((b3 : Nat) - 0x80)) :: cs)
        else none
      | _ => none
    else none

/-- Python's `utf-8-sig` codec: strip a leading byte-order mark when present,
then decode as strict UTF-8. -/
def decodeUtf8Sig (bs : Bytes) : Option PyStr :=
  match bs with
  | b0 :: b1 :: b2 :: rest =>
    if (b0 : Nat) = 0xEF ∧ (b1 : Nat) = 0xBB ∧ (b2 : Nat) = 0xBF then decodeUtf8 rest
    else decodeUtf8 (b0 :: b1 :: b2 :: rest)
  | other => decodeUtf8 other

/-- Models `bytes.decode("utf-8", errors="ignore")`: lossy UTF-8 decoding
that drops bytes at which strict decoding fails; it never fails.  (The
ingestion code keeps this as a terminal fallback; the unreachability
theorem below shows it is never taken.) -/
def decodeUtf8Ignore : Bytes → PyStr
  | [] => []
  | b :: bs =>
    if (b : Nat) ≤ 0x7F then
      charOfByte b :: decodeUtf8Ignore bs
    else if 0xC2 ≤ (b : Nat) ∧ (b : Nat) ≤ 0xDF then
      match bs with
      | b1 :: bs2 =>
        if utf8Cont b1 then
          Char.ofNat (((b : Nat) - 0xC0) * 0x40 + ((b1 : Nat) - 0x80)) ::
            decodeUtf8Ignore bs2
        else decodeUtf8Ignore (b1 :: bs2)
      | [] => []
    else if 0xE0 ≤ (b : Nat) ∧ (b : Nat) ≤ 0xEF then
      match bs with
      | b1 :: b2 :: bs3 =>
        if (if (b : Nat) = 0xE0 then 0xA0 else 0x80) ≤ (b1 : Nat) ∧
           (b1 : Nat) ≤ (if (b : Nat) = 0xED then 0x9F else 0xBF) ∧ utf8Cont b2 then
          Char.ofNat (((b : Nat) - 0xE0) * 0x1000 +
            ((b1 : Nat) - 0x80) * 0x40 + ((b2 : Nat) - 0x80)) ::
            decodeUtf8Ignore bs3
        else decodeUtf8Ignore (b1 :: b2 :: bs3)
      | rest => decodeUtf8Ignore rest
    else if 0xF0 ≤ (b : Nat) ∧ (b : Nat) ≤ 0xF4 then
      match bs with
      | b1 :: b2 :: b3 :: bs4 =>
        if (if (b : Nat) = 0xF0 then 0x90 else 0x80) ≤ (b1 : Nat) ∧
           (b1 : Nat) ≤ (if (b : Nat) = 0xF4 then 0x8F else 0xBF) ∧
           utf8Cont b2 ∧ utf8Cont b3 then
          Char.ofNat (((b : Nat) - 0xF0) * 0x40000 +
            ((b1 : Nat) - 0x80) * 0x1000 + ((b2 : Nat) - 0x80) * 0x40 +
            ((b3 : Nat) - 0x80)) :: decodeUtf8Ignore bs4
        else decodeUtf8Ignore (b1 :: b2 :: b3 :: bs4)
      | rest => decodeUtf8Ignore rest
    else decodeUtf8Ignore bs

/-- Generic decoder for a double-byte CJK codec given (a fragment of) its
mapping table: ASCII bytes decode to themselves, a high lead byte must
form a two-byte sequence found in the table. -/
def decodeTable (tbl : List (Char × Byte × Byte)) : Bytes → Option PyStr
  | [] => some []
  | b :: bs =>
    if (b : Nat) ≤ 0x7F then
      (decodeTable tbl bs).map (fun cs => charOfByte b :: cs)
    else
      match bs with
      | b2 :: bs2 =>
        match tbl.find? (fun e => e.2.1 == b && e.2.2 == b2) with
        | some e => (decodeTable tbl bs2).map (fun cs => e.1 :: cs)
        | none => none
      | [] => none

/-- Generic encoder for a double-byte CJK codec over the same table. -/
def encodeTable (tbl : List (Char × Byte × Byte)) : PyStr → Option Bytes
  | [] => some []
  | c :: cs =>
    if h : c.toNat ≤ 0x7F then
      (encodeTable tbl cs).map (fun r => (⟨c.toNat, by omega⟩ : Byte) :: r)
    else
      match tbl.find? (fun e => e.1 == c) with
      | some e => (encodeTable tbl cs).map (fun r => e.2.1 :: e.2.2 :: r)
      | none => none

/-- Fragment of the real GBK mapping table (values checked against the
Python `gbk` codec): 中 = D6 D0, 小 = D0 A1, 文 = CE C4. -/
def gbkTable : List (Char × Byte × Byte) :=
  [('中', 0xD6, 0xD0), ('小', 0xD0, 0xA1), ('文', 0xCE, 0xC4)]

/-- Fragment of the GB2312 table (these characters are in GB2312, where
their codes agree with GBK). -/
def gb2312Table : List (Char × Byte × Byte) :=
  [('中', 0xD6, 0xD0), ('小', 0xD0, 0xA1), ('文', 0xCE, 0xC4)]

/-- Fragment of the Big5 table: 中 = A4 A4. -/
def big5Table : List (Char × Byte × Byte) :=
  [('中', 0xA4, 0xA4)]

/-- Python's `latin-1` codec: total, every byte maps to the character of
its own code point. -/
def decodeLatin1 (bs : Bytes) : Option PyStr :=
  some (bs.map charOfByte)

/-- One byte of Windows code page 1252: identical to latin-1 outside
0x80–0x9F; that block is remapped, with five undefined bytes that fail. -/
def cp1252Char (b : Byte) : Option Char :=
  if (b : Nat) < 0x80 ∨ 0x9F < (b : Nat) then some (charOfByte b)
  else match (b : Nat) with
  | 0x80 => some '€' | 0x82 => some '‚' | 0x83 => some 'ƒ' | 0x84 => some '„'
  | 0x85 => some '…' | 0x86 => some '†' | 0x87 => some '‡' | 0x88 => some 'ˆ'
  | 0x89 => some '‰' | 0x8A => some 'Š' | 0x8B => some '‹' | 0x8C => some 'Œ'
  | 0x8E => some 'Ž' | 0x91 => some '‘' | 0x92 => some '’' | 0x93 => some '“'
  | 0x94 => some '”' | 0x95 => some '•' | 0x96 => some '–' | 0x97 => some '—'
  | 0x98 => some '˜' | 0x99 => some '™' | 0x9A => some 'š' | 0x9B => some '›'
  | 0x9C => some 'œ' | 0x9E => some 'ž' | 0x9F => some 'Ÿ'
  | _ => none

/-- Python's `cp1252` codec. -/
def decodeCp1252 (bs : Bytes) : Option PyStr :=
  bs.mapM cp1252Char

/-- The text encodings named by the ingestion code. -/
inductive Encoding where
  | utf8 | utf8sig | gbk | gb2312 | big5 | latin1 | cp1252 | iso8859_1
deriving DecidableEq, Repr

/-- Dispatch `bytes.decode(encoding)` to the codec models.  Python's
`iso-8859-1` is the same codec as `latin-1`. -/
def decodeWith : Encoding → Bytes → Option PyStr
  | .utf8 => decodeUtf8
  | .utf8sig => decodeUtf8Sig
  | .gbk => decodeTable gbkTable
  | .gb2312 => decodeTable gb2312Table
  | .big5 => decodeTable big5Table
  | .latin1 => decodeLatin1
  | .cp1252 => decodeCp1252
  | .iso8859_1 => decodeLatin1

/-- A double-byte CJK encoding (spec §4.2 vocabulary). -/
def isCJKDoubleByte : Encoding → Bool
  | .gbk | .gb2312 | .big5 => true
  | _ => false

/-- The candidate list of `parse_markdown`
(`['utf-8', 'utf-8-sig', 'latin-1', 'cp1252']`). -/
def mdEncodings : List Encoding :=
  [.utf8, .utf8sig, .latin1, .cp1252]

/-- The candidate list of `parse_text`
(`['utf-8', 'utf-8-sig', 'gbk', 'gb2312', 'big5', 'latin-1', 'cp1252',
'iso-8859-1']`). -/
def txtEncodings : List Encoding :=
  [.utf8, .utf8sig, .gbk, .gb2312, .big5, .latin1, .cp1252, .iso8859_1]

/-- The decode loop shared by `parse_markdown` and `parse_text`: try each
candidate in order, accepting the first that decodes without error. -/
def firstDecode (encs : List Encoding) (bs : Bytes) : Option PyStr :=
  match encs with
  | [] => none
  | e :: rest =>
    match decodeWith e bs with
    | some s => some s
    | none => firstDecode rest bs

/-- `FileParser.parse_markdown`: try the candidate encodings in order,
fall back to lossy UTF-8, and strip the result.  (The enclosing
`try/except` of the source cannot fire: every branch below is total.) -/
def parse_markdown (bs : Bytes) : PyStr :=
  match firstDecode mdEncodings bs with
  | some s => pyStrip s
  | none => pyStrip (decodeUtf8Ignore bs)

/-- `FileParser.parse_text`: same loop over the longer candidate list;
each successful candidate returns `text_content.strip()`, and the
fallback decodes as UTF-8 ignoring errors and strips. -/
def parse_text (bs : Bytes) : PyStr :=
  match firstDecode txtEncodings bs with
  | some s => pyStrip s
  | none => pyStrip (decodeUtf8Ignore bs)

/-- Index of the last occurrence of `c` in `s`, or `-1` when absent
(Python `str.rfind`). -/
def rfindIdx (c : Char) (s : PyStr) : Int :=
  (s.foldl (fun (acc : Int × Int) x =>
    (if x = c then acc.2 else acc.1, acc.2 + 1)) (-1, 0)).1

/-- The extension part of `os.path.splitext` (posix rules): the suffix
from the last dot of the final path component, unless every character of
the component before that dot is itself a dot. -/
def splitextExt (p : PyStr) : PyStr :=
  let sep := rfindIdx '/' p
  let dot := rfindIdx '.' p
  if dot > sep then
    if ((p.drop (sep + 1).toNat).take (dot - sep - 1).toNat).any (fun c => c ≠ '.') then
      p.drop dot.toNat
    else []
  else []

/-- The classifier's first step, `os.path.splitext(filename)[1].lower()`
(`str.lower` modelled by `Char.toLower`, which agrees with Python on the
ASCII extensions the classifier compares against). -/
def lowerExt (filename : PyStr) : PyStr :=
  (splitextExt filename).map Char.toLower

/-- `FileParser.get_file_type`: classify by the lower-cased filename
extension; PDF, markdown (the source's literal is `'md'`) and text,
defaulting to text. -/
def get_file_type (filename : PyStr) : PyStr :=
  if lowerExt filename = ".pdf".toList then "pdf".toList
  else if lowerExt filename = ".md".toList ∨ lowerExt filename = ".markdown".toList then "md".toList
  else if lowerExt filename = ".txt".toList ∨ lowerExt filename = ".text".toList then "text".toList
  else "text".toList

/-!
The PDF cascade operates through three external libraries (pypdf,
pdfplumber, pytesseract/pdf2image).  Their behaviour on the uploaded
byte buffer is the environment of `parse_pdf` and is modelled by a
`PdfEnv` record: for each of the two text-layer strategies, the per-page
results of `page.extract_text()` (`none` = the per-page call raised) and
an optional abort point (`some k` = the surrounding reader/iteration
raised after `k` pages had been processed, which the source catches with
the strategy-level `except`); for OCR, the per-page results of
`pytesseract.image_to_string` and a flag saying whether the surrounding
conversion raised.
-/
structure PdfEnv where
  s1Pages : List (Option PyStr)
  s1Abort : Option Nat
  s2Pages : List (Option PyStr)
  s2Abort : Option Nat
  ocrPages : List (Option PyStr)
  ocrAbort : Bool

/-- The per-page accumulation loop shared by all three strategies:
append `page_text + "\n"` whenever the page yielded text that is
non-empty after stripping; pages that raised or yielded nothing
contribute nothing. -/
def pageConcat (pages : List (Option PyStr)) : PyStr :=
  pages.foldl (fun acc p =>
    match p with
    | some t => if pyStrip t ≠ [] then acc ++ t ++ ['\n'] else acc
    | none => acc) []

/-- `FileParser.extract_text_with_ocr`: concatenate per-page OCR text; on
any surrounding failure, or when nothing was found, return the empty
string, otherwise the stripped concatenation. -/
def extract_text_with_ocr (env : PdfEnv) : PyStr :=
  if env.ocrAbort then []
  else
    let t := pageConcat env.ocrPages
    if pyStrip t ≠ [] then pyStrip t else []

/-- Method 1 of `parse_pdf` (pypdf): when the strategy did not raise, its
output is accepted and returned iff the stripped concatenation is truthy
and longer than 50 characters; when it raised, the strategy-level
`except` skips the acceptance check. -/
def strat1Accept (env : PdfEnv) : Option PyStr :=
  match env.s1Abort with
  | none =>
    let t := pageConcat env.s1Pages
    if pyStrip t ≠ [] ∧ (pyStrip t).length > 50 then some (pyStrip t) else none
  | some _ => none

/-- The value of `text_content` when method 2 starts: reset to the empty
string when method 1 completed without raising (insufficient-content
branch), but left holding the partial concatenation when method 1 raised
after `k` pages. -/
def carryText (env : PdfEnv) : PyStr :=
  match env.s1Abort with
  | none => []
  | some k => pageConcat (env.s1Pages.take k)

/-- Method 2 of `parse_pdf` (pdfplumber): appends its per-page text to
the existing `text_content` (see `carryText`) and accepts under the same
truthy-and-longer-than-50 test; when pdfplumber raised, the acceptance
check is skipped. -/
def strat2Accept (env : PdfEnv) : Option PyStr :=
  match env.s2Abort with
  | none =>
    let t := carryText env ++ pageConcat env.s2Pages
    if pyStrip t ≠ [] ∧ (pyStrip t).length > 50 then some (pyStrip t) else none
  | some _ => none

/-- The error message raised when every strategy of `parse_pdf` is
exhausted. -/
def pdfFailMsg : PyStr :=
  ("PDF parsing failed: Unable to extract text content using any method. " ++
   "This may be due to: 1) Empty or corrupted PDF, 2) Heavily encrypted PDF, " ++
   "3) PDF with only images/graphics, or 4) OCR engine issues. " ++
   "Please ensure the PDF contains readable text or try converting it to a text format.").toList

/-- `FileParser.parse_pdf`: the three-strategy cascade.  Method 1 and
method 2 each return early exactly when they accept; otherwise OCR runs,
its output is returned when truthy with truthy strip, and otherwise the
descriptive error is raised (modelled as `Except.error`). -/
def parse_pdf (env : PdfEnv) : Except PyStr PyStr :=
  match strat1Accept env with
  | some t => .ok t
  | none =>
    match strat2Accept env with
    | some t => .ok t
    | none =>
      let ocr := extract_text_with_ocr env
      if ocr ≠ [] ∧ pyStrip ocr ≠ [] then .ok ocr
      else .error pdfFailMsg

/-- The dispatch step of `parse_file`: PDF content goes to the cascade,
markdown ('md') to `parse_markdown`, everything else to `parse_text`. -/
def dispatch (fileType : PyStr) (content : Bytes) (env : PdfEnv) : Except PyStr PyStr :=
  if fileType = "pdf".toList then parse_pdf env
  else if fileType = "md".toList then .ok (parse_markdown content)
  else .ok (parse_text content)

/-- `FileParser.parse_file`: reject empty content with
`ValueError("File content is empty")`, classify, dispatch, reject an
empty-after-strip extraction, and otherwise return
`(file_type, parsed_content)`.  Errors raised below are re-raised
unchanged by the source's `except` clause. -/
def parse_file (filename : PyStr) (content : Bytes) (env : PdfEnv) :
    Except PyStr (PyStr × PyStr) :=
  if content = [] then .error ("File content is empty").toList
  else
    match dispatch (get_file_type filename) content env with
    | .error e => .error e
    | .ok c =>
      if c = [] ∨ pyStrip c = [] then
        .error (("No content could be extracted from the ").toList ++
          get_file_type filename ++ (" file").toList)
      else .ok (get_file_type filename, c)

/-- Encoding a string with the GBK codec (the table-fragment model). -/
def encodeGbk : PyStr → Option Bytes :=
  encodeTable gbkTable

/-- Cascade environment: strategy 1 completes with exactly 50 characters
of stripped text, strategy 2 completes with 60 characters. -/
def env50 : PdfEnv :=
  { s1Pages := [some (List.replicate 50 'a')], s1Abort := none,
    s2Pages := [some (List.replicate 60 'b')], s2Abort := none,
    ocrPages := [], ocrAbort := true }

/-- Cascade environment: strategy 1 completes with exactly 51 characters
of stripped text. -/
def env51 : PdfEnv :=
  { s1Pages := [some (List.replicate 51 'a')], s1Abort := none,
    s2Pages := [some (List.replicate 60 'b')], s2Abort := none,
    ocrPages := [], ocrAbort := true }

/-- Cascade environment: every strategy completes and yields nothing. -/
def env0 : PdfEnv :=
  { s1Pages := [], s1Abort := none, s2Pages := [], s2Abort := none,
    ocrPages := [], ocrAbort := false }

/-- Cascade environment: strategy 1 yields 60 characters at once. -/
def env60 : PdfEnv :=
  { s1Pages := [some (List.replicate 60 'a')], s1Abort := none,
    s2Pages := [], s2Abort := none, ocrPages := [], ocrAbort := true }

/-- Cascade environment: the pypdf strategy raises before any page and
the pdfplumber strategy yields 60 characters. -/
def envA : PdfEnv :=
  { s1Pages := [some (List.replicate 10 'x')], s1Abort := some 0,
    s2Pages := [some (List.replicate 60 'p')], s2Abort := none,
    ocrPages := [], ocrAbort := true }

/-- Cascade environment: the pdfplumber strategy raises and OCR finds
text. -/
def envB : PdfEnv :=
  { s1Pages := [], s1Abort := none, s2Pages := [], s2Abort := some 0,
    ocrPages := [some ('o' :: 'c' :: 'r' :: [])], ocrAbort := false }

/-- Cascade environment: the pypdf strategy raises after one 40-character
page and the pdfplumber strategy yields another 40-character page, so
only the carried-over combination passes the 50-character bar. -/
def envCarry : PdfEnv :=
  { s1Pages := [some (List.replicate 40 'x')], s1Abort := some 1,
    s2Pages := [some (List.replicate 40 'y')], s2Abort := none,
    ocrPages := [], ocrAbort := true }

/-- Cascade environment for the non-PDF paths (their behaviour does not
depend on it). -/
def envText : PdfEnv :=
  { s1Pages := [], s1Abort := none, s2Pages := [], s2Abort := none,
    ocrPages := [], ocrAbort := true }

/-- Decidable equality for `Except`, used to evaluate the embedding on
concrete inputs. -/
instance {ε α : Type} [DecidableEq ε] [DecidableEq α] : DecidableEq (Except ε α) := fun x y =>
  match x, y with
  | .error a, .error b =>
    if h : a = b then isTrue (congrArg Except.error h)
    else isFalse (fun hh => h (Except.error.inj hh))
  | .error _, .ok _ => isFalse (fun hh => Except.noConfusion hh)
  | .ok _, .error _ => isFalse (fun hh => Except.noConfusion hh)
  | .ok a, .ok b =>
    if h : a = b then isTrue (congrArg Except.ok h)
    else isFalse (fun hh => h (Except.ok.inj hh))

theorem dropWhile_head?_not {α : Type} {p : α → Bool} {l : List α} {a : α}
    (h : (l.dropWhile p).head? = some a) : p a = false := by
  have hm := List.head?_dropWhile_not p l
  rw [h] at hm
  exact hm

theorem dropWhile_getLast?_of_ne_nil {α : Type} (p : α → Bool) :
    ∀ l : List α, l.dropWhile p ≠ [] → (l.dropWhile p).getLast? = l.getLast?
  | [], h => absurd rfl h
  | x :: t, h => by
    by_cases hx : p x
    · rw [List.dropWhile_cons_of_pos hx] at h ⊢
      rw [dropWhile_getLast?_of_ne_nil p t h]
      cases t with
      | nil => simp [List.dropWhile] at h
      | cons y ty => rw [List.getLast?_cons_cons]
    · rw [List.dropWhile_cons_of_neg hx]

theorem pyStrip_noop {l : PyStr}
    (h1 : ∀ a, l.head? = some a → isPySpace a = false)
    (h2 : ∀ a, l.getLast? = some a → isPySpace a = false) :
    pyStrip l = l := by
  unfold pyStrip
  cases l with
  | nil => simp
  | cons x t =>
    have hx : isPySpace x = false := h1 x rfl
    rw [List.dropWhile_cons_of_neg (by simp [hx])]
    cases hrev : (x :: t).reverse with
    | nil => simp at hrev
    | cons b rb =>
      have hb : (x :: t).getLast? = some b := by
        rw [← List.head?_reverse, hrev]; rfl
      rw [List.dropWhile_cons_of_neg (by simp [h2 b hb])]
      rw [← hrev, List.reverse_reverse]

theorem pyStrip_head?_not {s : PyStr} {a : Char}
    (h : (pyStrip s).head? = some a) : isPySpace a = false := by
  unfold pyStrip at h
  rw [List.head?_reverse] at h
  have hne : (s.dropWhile isPySpace).reverse.dropWhile isPySpace ≠ [] := by
    intro hnil
    rw [hnil] at h
    exact Option.noConfusion h
  rw [dropWhile_getLast?_of_ne_nil _ _ hne, List.getLast?_reverse] at h
  exact dropWhile_head?_not h

theorem pyStrip_getLast?_not {s : PyStr} {a : Char}
    (h : (pyStrip s).getLast? = some a) : isPySpace a = false := by
  unfold pyStrip at h
  rw [List.getLast?_reverse] at h
  exact dropWhile_head?_not h

theorem pyStrip_idem (s : PyStr) : pyStrip (pyStrip s) = pyStrip s :=
  pyStrip_noop (fun _ h => pyStrip_head?_not h) (fun _ h => pyStrip_getLast?_not h)

/-- Well-formedness of a codec table fragment: every lead byte is
non-ASCII and looking the byte pair back up finds the same entry. -/
def tableGood (tbl : List (Char × Byte × Byte)) : Prop :=
  ∀ e ∈ tbl, 0x7F < (e.2.1 : Nat) ∧
    tbl.find? (fun q => q.2.1 == e.2.1 && q.2.2 == e.2.2) = some e

theorem decode_encodeTable {tbl : List (Char × Byte × Byte)} (hg : tableGood tbl) :
    ∀ (s : PyStr) (bs : Bytes), encodeTable tbl s = some bs →
      decodeTable tbl bs = some s := by
  intro s
  induction s with
  | nil =>
    intro bs h
    simp only [encodeTable, Option.some.injEq] at h
    subst h
    rfl
  | cons c cs ih =>
    intro bs h
    by_cases hc : c.toNat ≤ 0x7F
    · rw [encodeTable, dif_pos hc] at h
      cases henc : encodeTable tbl cs with
      | none => rw [henc] at h; exact Option.noConfusion h
      | some r =>
        rw [henc, Option.map_some'] at h
        cases h
        have hcr : ((⟨c.toNat, by omega⟩ : Byte) : Nat) ≤ 0x7F := hc
        rw [decodeTable.eq_def]
        dsimp only
        rw [if_pos hcr, ih r henc, Option.map_some']
        simp [charOfByte]
    · rw [encodeTable, dif_neg hc] at h
      cases hf : tbl.find? (fun e => e.1 == c) with
      | none => rw [hf] at h; exact Option.noConfusion h
      | some e =>
        cases henc : encodeTable tbl cs with
        | none =>
          simp only [hf, henc, Option.map_none'] at h
          exact Option.noConfusion h
        | some r =>
          simp only [hf, henc, Option.map_some', Option.some.injEq] at h
          subst h
          have hbeq := List.find?_some hf
          have hce : e.1 = c := eq_of_beq hbeq
          have hmem : e ∈ tbl := List.mem_of_find?_eq_some hf
          obtain ⟨hlead, hpair⟩ := hg e hmem
          rw [decodeTable.eq_def]
          dsimp only
          rw [if_neg (by omega)]
          simp only [hpair, ih r henc, Option.map_some', hce]

theorem gbkTable_good : tableGood gbkTable := by
  unfold tableGood
  decide

theorem firstDecode_isSome_of_mem {bs : Bytes} :
    ∀ {encs : List Encoding} {e : Encoding}, e ∈ encs →
      (decodeWith e bs).isSome = true → (firstDecode encs bs).isSome = true := by
  intro encs
  induction encs with
  | nil => intro e he; exact absurd he (List.not_mem_nil e)
  | cons f rest ih =>
    intro e he hd
    rw [firstDecode]
    cases hf : decodeWith f bs with
    | some s => rfl
    | none =>
      rcases List.mem_cons.mp he with rfl | hrest
      · rw [hf] at hd; exact Bool.noConfusion hd
      · exact ih hrest hd

theorem firstDecode_txt_gbk {bs : Bytes} {s : PyStr}
    (h8 : decodeUtf8 bs = none) (hsig : decodeUtf8Sig bs = none)
    (hg : decodeWith Encoding.gbk bs = some s) :
    firstDecode txtEncodings bs = some s := by
  simp only [txtEncodings, firstDecode, decodeWith, h8, hsig]
  rw [show decodeWith Encoding.gbk bs = decodeTable gbkTable bs from rfl] at hg
  rw [hg]

/-- Shape of a method-1 acceptance: the returned text is the stripped
page concatenation, it is non-empty, longer than 50 characters, and the
strategy did not raise. -/
theorem strat1Accept_eq_some {env : PdfEnv} {t : PyStr}
    (h : strat1Accept env = some t) :
    env.s1Abort = none ∧ t = pyStrip (pageConcat env.s1Pages) ∧
      t ≠ [] ∧ 50 < t.length := by
  unfold strat1Accept at h
  cases habort : env.s1Abort with
  | some k => rw [habort] at h; exact Option.noConfusion h
  | none =>
    rw [habort] at h
    simp only at h
    split at h
    · rename_i hcond
      cases h
      exact ⟨rfl, rfl, hcond.1, hcond.2⟩
    · exact Option.noConfusion h

/-- Shape of a method-2 acceptance: the returned text is the stripped
concatenation of the carried-over method-1 text and method 2's own page
concatenation. -/
theorem strat2Accept_eq_some {env : PdfEnv} {t : PyStr}
    (h : strat2Accept env = some t) :
    env.s2Abort = none ∧
      t = pyStrip (carryText env ++ pageConcat env.s2Pages) ∧
      t ≠ [] ∧ 50 < t.length := by
  unfold strat2Accept at h
  cases habort : env.s2Abort with
  | some k => rw [habort] at h; exact Option.noConfusion h
  | none =>
    rw [habort] at h
    simp only at h
    split at h
    · rename_i hcond
      cases h
      exact ⟨rfl, rfl, hcond.1, hcond.2⟩
    · exact Option.noConfusion h

/-- The OCR helper returns either the empty string or a stripped
non-empty string that strips to itself. -/
theorem extract_text_with_ocr_shape (env : PdfEnv) :
    extract_text_with_ocr env = [] ∨
      (extract_text_with_ocr env ≠ [] ∧
        pyStrip (extract_text_with_ocr env) = extract_text_with_ocr env) := by
  unfold extract_text_with_ocr
  by_cases ha : env.ocrAbort = true
  · left; rw [if_pos ha]
  · rw [if_neg ha]
    by_cases hs : pyStrip (pageConcat env.ocrPages) ≠ []
    · right
      rw [if_pos hs]
      exact ⟨hs, pyStrip_idem _⟩
    · left; rw [if_neg hs]

/-- C7: for every filename (and every behaviour of the external PDF
libraries), calling `parse_file` with an empty byte buffer fails with
`ValueError("File content is empty")` — the check precedes
classification and extraction, so neither the filename nor the
environment influences the result. -/
theorem parse_file_empty_rejected (fn : PyStr) (env : PdfEnv) :
    parse_file fn [] env = .error ("File content is empty").toList := rfl

/-- C3: `get_file_type` is a total function of the lower-cased filename
extension: `.pdf` classifies as PDF, `.md`/`.markdown` as markdown (the
source's `'md'` literal), `.txt`/`.text` as text, and anything else —
including no extension — as text; consequently `a.PDF` and `a.pdf`
classify alike and `a.xyz` classifies as text. -/
theorem get_file_type_mapping (fn : PyStr) :
    (lowerExt fn = ".pdf".toList → get_file_type fn = "pdf".toList) ∧
    ((lowerExt fn = ".md".toList ∨ lowerExt fn = ".markdown".toList) →
      get_file_type fn = "md".toList) ∧
    ((lowerExt fn = ".txt".toList ∨ lowerExt fn = ".text".toList) →
      get_file_type fn = "text".toList) ∧
    (lowerExt fn ≠ ".pdf".toList → lowerExt fn ≠ ".md".toList →
      lowerExt fn ≠ ".markdown".toList → get_file_type fn = "text".toList) ∧
    get_file_type ("a.PDF").toList = get_file_type ("a.pdf").toList ∧
    get_file_type ("a.xyz").toList = "text".toList := by
  refine ⟨?_, ?_, ?_, ?_, by decide, by decide⟩
  · intro h
    unfold get_file_type
    rw [h]
    decide
  · rintro (h | h) <;> (unfold get_file_type; rw [h]; decide)
  · rintro (h | h) <;> (unfold get_file_type; rw [h]; decide)
  · intro h1 h2 h3
    unfold get_file_type
    rw [if_neg h1, if_neg (by rintro (h | h); exact h2 h; exact h3 h)]
    by_cases h4 : lowerExt fn = ".txt".toList ∨ lowerExt fn = ".text".toList
    · rw [if_pos h4]
    · rw [if_neg h4]

/-- Witness for C3 at concrete filenames. -/
theorem get_file_type_mapping_witness :
    get_file_type ("x.MARKDOWN").toList = "md".toList ∧
    get_file_type ("file.bin").toList = "text".toList :=
  ⟨(get_file_type_mapping (("x.MARKDOWN").toList)).2.1 (Or.inr (by decide)),
   (get_file_type_mapping (("file.bin").toList)).2.2.2.1 (by decide) (by decide) (by decide)⟩

/-- C10: because latin-1 decodes every byte sequence and appears in the
candidate lists of both `parse_markdown` and `parse_text`, the decode
loop always succeeds, so the terminal lossy UTF-8 fallback branch is
unreachable in both functions and each returns the stripped output of
the first successful candidate. -/
theorem lossy_fallback_unreachable (bs : Bytes) :
    (firstDecode mdEncodings bs).isSome = true ∧
    (firstDecode txtEncodings bs).isSome = true ∧
    Encoding.latin1 ∈ mdEncodings ∧ Encoding.latin1 ∈ txtEncodings ∧
    decodeWith Encoding.latin1 bs = some (bs.map charOfByte) ∧
    parse_markdown bs = pyStrip ((firstDecode mdEncodings bs).getD []) ∧
    parse_text bs = pyStrip ((firstDecode txtEncodings bs).getD []) := by
  have hlat : (decodeWith Encoding.latin1 bs).isSome = true := rfl
  have hmd : (firstDecode mdEncodings bs).isSome = true :=
    firstDecode_isSome_of_mem (by decide) hlat
  have htxt : (firstDecode txtEncodings bs).isSome = true :=
    firstDecode_isSome_of_mem (by decide) hlat
  refine ⟨hmd, htxt, by decide, by decide, rfl, ?_, ?_⟩
  · unfold parse_markdown
    cases hfd : firstDecode mdEncodings bs with
    | none => rw [hfd] at hmd; exact Bool.noConfusion hmd
    | some s => rfl
  · unfold parse_text
    cases hfd : firstDecode txtEncodings bs with
    | none => rw [hfd] at htxt; exact Bool.noConfusion htxt
    | some s => rfl

/-- C1: whenever `parse_file` succeeds on a non-empty buffer, the
returned text is non-empty and non-whitespace after stripping; and
whenever the dispatched extraction yields text that is empty after
stripping, `parse_file` fails with the no-content error instead of
succeeding. -/
theorem parse_file_nonempty (fn : PyStr) (content : Bytes) (env : PdfEnv)
    (hne : content ≠ []) :
    (∀ ft text, parse_file fn content env = .ok (ft, text) →
      text ≠ [] ∧ pyStrip text ≠ []) ∧
    (∀ c, dispatch (get_file_type fn) content env = .ok c → pyStrip c = [] →
      parse_file fn content env = .error
        (("No content could be extracted from the ").toList ++
          get_file_type fn ++ (" file").toList)) := by
  constructor
  · intro ft text h
    unfold parse_file at h
    rw [if_neg hne] at h
    split at h
    · exact Except.noConfusion h
    · split at h
      · exact Except.noConfusion h
      · rename_i hcond
        have hpair : (get_file_type fn, _) = (ft, text) := Except.ok.inj h
        have htext : _ = text := congrArg Prod.snd hpair
        rw [← htext]
        exact ⟨fun hx => hcond (Or.inl hx), fun hx => hcond (Or.inr hx)⟩
  · intro c hd hstrip
    unfold parse_file
    rw [if_neg hne]
    simp only [hd]
    rw [if_pos (Or.inr hstrip)]

/-- Witness for C1: a two-byte text file succeeds with non-whitespace
content, and a whitespace-only text file is rejected. -/
theorem parse_file_nonempty_witness :
    (('h' :: 'i' :: []) ≠ ([] : PyStr) ∧ pyStrip ('h' :: 'i' :: []) ≠ []) ∧
    parse_file ("ws.txt").toList [0x20, 0x20] envText = .error
      (("No content could be extracted from the ").toList ++
        get_file_type (("ws.txt").toList) ++ (" file").toList) :=
  ⟨(parse_file_nonempty (("a.txt").toList) [0x68, 0x69] envText (by decide)).1
      ("text").toList ('h' :: 'i' :: []) (by decide),
   (parse_file_nonempty (("ws.txt").toList) [0x20, 0x20] envText (by decide)).2
      [] (by decide) (by decide)⟩

/-- C2 (counterexample): a PDF whose fast-path extraction yields exactly
50 trimmed characters is NOT accepted by strategy 1 — the source tests
`len(text_content.strip()) > 50`, strictly — so the cascade proceeds to
strategy 2 instead of returning early with the 50-character text,
contradicting the claimed at-least-50 acceptance threshold. -/
theorem pdf_threshold_counterexample :
    (pyStrip (pageConcat env50.s1Pages)).length = 50 ∧
    strat1Accept env50 = none ∧
    parse_pdf env50 = .ok (List.replicate 60 'b') ∧
    List.replicate 60 'b' ≠ pyStrip (pageConcat env50.s1Pages) := by decide

/-- C2 (amended): a completed strategy-1 (and likewise strategy-2)
output is accepted as final iff its trimmed length strictly exceeds 50
characters; both 49 and 50 trimmed characters proceed to the next
strategy, and the boundary lies between 50 and 51. -/
theorem pdf_threshold_amended (env : PdfEnv) (h1 : env.s1Abort = none) :
    ((strat1Accept env).isSome = true ↔
      50 < (pyStrip (pageConcat env.s1Pages)).length) ∧
    (∀ t, strat1Accept env = some t → parse_pdf env = .ok t) ∧
    (env.s2Abort = none →
      ((strat2Accept env).isSome = true ↔
        50 < (pyStrip (pageConcat env.s2Pages)).length)) := by
  have hc : carryText env = [] := by unfold carryText; rw [h1]
  refine ⟨?_, ?_, ?_⟩
  · unfold strat1Accept
    rw [h1]
    by_cases hval : 50 < (pyStrip (pageConcat env.s1Pages)).length
    · have hne : pyStrip (pageConcat env.s1Pages) ≠ [] := by
        intro hnil; rw [hnil] at hval; exact absurd hval (by decide)
      rw [if_pos ⟨hne, hval⟩]
      simp [hval]
    · rw [if_neg (fun hh => hval hh.2)]
      simp [hval]
  · intro t ht
    unfold parse_pdf
    simp only [ht]
  · intro h2
    unfold strat2Accept
    rw [h2, hc, List.nil_append]
    by_cases hval : 50 < (pyStrip (pageConcat env.s2Pages)).length
    · have hne : pyStrip (pageConcat env.s2Pages) ≠ [] := by
        intro hnil; rw [hnil] at hval; exact absurd hval (by decide)
      rw [if_pos ⟨hne, hval⟩]
      simp [hval]
    · rw [if_neg (fun hh => hval hh.2)]
      simp [hval]

/-- Witness for the amended C2: 51 trimmed characters are accepted and
returned by strategy 1, while 50 are not. -/
theorem pdf_threshold_amended_witness :
    parse_pdf env51 = .ok (List.replicate 51 'a') ∧
    strat1Accept env50 = none := by
  refine ⟨?_, by decide⟩
  exact (pdf_threshold_amended env51 rfl).2.1 (List.replicate 51 'a') (by decide)

/-- C4: `parse_pdf` raises exactly one error, the descriptive message,
and does so iff strategy 1 is not accepted, strategy 2 is not accepted,
and OCR yields nothing; the message contains the
inability-by-any-method phrase, and a successful return is never empty
or whitespace-only. -/
theorem parse_pdf_error_iff (env : PdfEnv) :
    (parse_pdf env = .error pdfFailMsg ↔
      strat1Accept env = none ∧ strat2Accept env = none ∧
        extract_text_with_ocr env = []) ∧
    (∀ e, parse_pdf env = .error e → e = pdfFailMsg) ∧
    (∃ a b, pdfFailMsg =
      a ++ ("Unable to extract text content using any method").toList ++ b) ∧
    (∀ s, parse_pdf env = .ok s → s ≠ [] ∧ pyStrip s ≠ []) := by
  have hphrase : ∃ a b, pdfFailMsg =
      a ++ ("Unable to extract text content using any method").toList ++ b :=
    ⟨("PDF parsing failed: ").toList,
     (". This may be due to: 1) Empty or corrupted PDF, 2) Heavily encrypted PDF, " ++
      "3) PDF with only images/graphics, or 4) OCR engine issues. " ++
      "Please ensure the PDF contains readable text or try converting it to a text format.").toList,
     by decide⟩
  cases ha1 : strat1Accept env with
  | some t =>
    have hshape := strat1Accept_eq_some ha1
    have hpdf : parse_pdf env = .ok t := by unfold parse_pdf; simp only [ha1]
    refine ⟨⟨fun h => absurd (hpdf ▸ h) (fun hh => Except.noConfusion hh),
      fun h => Option.noConfusion h.1⟩, ?_, hphrase, ?_⟩
    · intro e he
      rw [hpdf] at he
      exact Except.noConfusion he
    · intro s hs
      rw [hpdf] at hs
      have hst : t = s := Except.ok.inj hs
      subst hst
      obtain ⟨_, hts, htne, _⟩ := hshape
      refine ⟨htne, ?_⟩
      rw [hts, pyStrip_idem]
      rw [hts] at htne
      exact htne
  | none =>
    cases ha2 : strat2Accept env with
    | some t =>
      have hshape := strat2Accept_eq_some ha2
      have hpdf : parse_pdf env = .ok t := by unfold parse_pdf; simp only [ha1, ha2]
      refine ⟨⟨fun h => absurd (hpdf ▸ h) (fun hh => Except.noConfusion hh),
        fun h => Option.noConfusion h.2.1⟩, ?_, hphrase, ?_⟩
      · intro e he
        rw [hpdf] at he
        exact Except.noConfusion he
      · intro s hs
        rw [hpdf] at hs
        have hst : t = s := Except.ok.inj hs
        subst hst
        obtain ⟨_, hts, htne, _⟩ := hshape
        refine ⟨htne, ?_⟩
        rw [hts, pyStrip_idem]
        rw [hts] at htne
        exact htne
    | none =>
      by_cases hocr : extract_text_with_ocr env ≠ [] ∧
          pyStrip (extract_text_with_ocr env) ≠ []
      · have hpdf : parse_pdf env = .ok (extract_text_with_ocr env) := by
          unfold parse_pdf
          simp only [ha1, ha2]
          rw [if_pos hocr]
        refine ⟨⟨fun h => absurd (hpdf ▸ h) (fun hh => Except.noConfusion hh),
          fun h => absurd h.2.2 hocr.1⟩, ?_, hphrase, ?_⟩
        · intro e he
          rw [hpdf] at he
          exact Except.noConfusion he
        · intro s hs
          rw [hpdf] at hs
          have hst : extract_text_with_ocr env = s := Except.ok.inj hs
          rw [← hst]
          exact hocr
      · have hempty : extract_text_with_ocr env = [] := by
          rcases extract_text_with_ocr_shape env with h | ⟨hne, hself⟩
          · exact h
          · exact absurd ⟨hne, by rw [hself]; exact hne⟩ hocr
        have hpdf : parse_pdf env = .error pdfFailMsg := by
          unfold parse_pdf
          simp only [ha1, ha2]
          rw [if_neg hocr]
        refine ⟨⟨fun _ => ⟨rfl, rfl, hempty⟩, fun _ => hpdf⟩, ?_, hphrase, ?_⟩
        · intro e he
          rw [hpdf] at he
          exact (Except.error.inj he).symm
        · intro s hs
          rw [hpdf] at hs
          exact Except.noConfusion hs

/-- Witness for C4: with every strategy empty the cascade raises the
descriptive error, and with a 60-character strategy-1 success the
returned text is non-empty and non-whitespace after stripping. -/
theorem parse_pdf_error_iff_witness :
    parse_pdf env0 = .error pdfFailMsg ∧
    (List.replicate 60 'a' ≠ ([] : PyStr) ∧
      pyStrip (List.replicate 60 'a') ≠ []) :=
  ⟨(parse_pdf_error_iff env0).1.mpr ⟨by decide, by decide, by decide⟩,
   (parse_pdf_error_iff env60).2.2.2 (List.replicate 60 'a') (by decide)⟩

/-- C6: an exception in one strategy never aborts the call while a later
strategy remains untried — when pypdf raises, pdfplumber's acceptance
still decides the result, and when pdfplumber raises, OCR's output is
still returned. -/
theorem pdf_strategy_isolation (env : PdfEnv) :
    (env.s1Abort.isSome = true →
      ∀ t, strat2Accept env = some t → parse_pdf env = .ok t) ∧
    (strat1Accept env = none → env.s2Abort.isSome = true →
      extract_text_with_ocr env ≠ [] →
      parse_pdf env = .ok (extract_text_with_ocr env)) := by
  constructor
  · intro h1 t h2
    have ha1 : strat1Accept env = none := by
      unfold strat1Accept
      cases hab : env.s1Abort with
      | none => rw [hab] at h1; exact Bool.noConfusion h1
      | some k => rfl
    unfold parse_pdf
    simp only [ha1, h2]
  · intro ha1 h2 hocr
    have ha2 : strat2Accept env = none := by
      unfold strat2Accept
      cases hab : env.s2Abort with
      | none => rw [hab] at h2; exact Bool.noConfusion h2
      | some k => rfl
    rcases extract_text_with_ocr_shape env with h | ⟨hne, hself⟩
    · exact absurd h hocr
    · unfold parse_pdf
      simp only [ha1, ha2]
      rw [if_pos ⟨hocr, by rw [hself]; exact hocr⟩]

/-- Witness for C6: a pypdf abort still lets pdfplumber's 60-character
output be returned, and a pdfplumber abort still lets OCR's output be
returned. -/
theorem pdf_strategy_isolation_witness :
    parse_pdf envA = .ok (List.replicate 60 'p') ∧
    parse_pdf envB = .ok ('o' :: 'c' :: 'r' :: []) := by
  constructor
  · exact (pdf_strategy_isolation envA).1 rfl (List.replicate 60 'p') (by decide)
  · have h := (pdf_strategy_isolation envB).2 (by decide) rfl (by decide)
    rw [h]
    decide

/-- C9: when pypdf aborts with an exception after `k` pages, the
accumulated `text_content` is not reset, so strategy 2's acceptance
check and its returned text are computed over the carried-over partial
strategy-1 output concatenated with strategy 2's own extraction. -/
theorem pdf_carryover (env : PdfEnv) (k : Nat)
    (h1 : env.s1Abort = some k) (h2 : env.s2Abort = none) :
    carryText env = pageConcat (env.s1Pages.take k) ∧
    (∀ t, strat2Accept env = some t →
      t = pyStrip (pageConcat (env.s1Pages.take k) ++ pageConcat env.s2Pages) ∧
      parse_pdf env = .ok t) ∧
    ((strat2Accept env).isSome = true ↔
      50 < (pyStrip (pageConcat (env.s1Pages.take k) ++
        pageConcat env.s2Pages)).length) := by
  have hc : carryText env = pageConcat (env.s1Pages.take k) := by
    unfold carryText; rw [h1]
  have ha1 : strat1Accept env = none := by
    unfold strat1Accept; rw [h1]
  refine ⟨hc, ?_, ?_⟩
  · intro t ht
    obtain ⟨_, hts, _, _⟩ := strat2Accept_eq_some ht
    rw [hc] at hts
    refine ⟨hts, ?_⟩
    unfold parse_pdf
    simp only [ha1, ht]
  · unfold strat2Accept
    rw [h2, hc]
    by_cases hval : 50 < (pyStrip (pageConcat (env.s1Pages.take k) ++
        pageConcat env.s2Pages)).length
    · have hne : pyStrip (pageConcat (env.s1Pages.take k) ++
          pageConcat env.s2Pages) ≠ [] := by
        intro hnil; rw [hnil] at hval; exact absurd hval (by decide)
      rw [if_pos ⟨hne, hval⟩]
      simp [hval]
    · rw [if_neg (fun hh => hval hh.2)]
      simp [hval]

/-- Witness for C9: a 40-character pypdf partial plus a 40-character
pdfplumber page passes the 50-character bar only jointly — strategy 2's
own trimmed output has length at most 50. -/
theorem pdf_carryover_witness :
    parse_pdf envCarry = .ok (pyStrip (pageConcat (envCarry.s1Pages.take 1) ++
      pageConcat envCarry.s2Pages)) ∧
    (pyStrip (pageConcat envCarry.s2Pages)).length ≤ 50 ∧
    50 < (pyStrip (pageConcat (envCarry.s1Pages.take 1) ++
      pageConcat envCarry.s2Pages)).length := by
  have h := pdf_carryover envCarry 1 rfl rfl
  have ht : strat2Accept envCarry =
      some (pyStrip (pageConcat (envCarry.s1Pages.take 1) ++
        pageConcat envCarry.s2Pages)) := by decide
  exact ⟨(h.2.1 _ ht).2, by decide, by decide⟩

/-- C5 (counterexample): the markdown path's candidate list
`['utf-8', 'utf-8-sig', 'latin-1', 'cp1252']` contains no CJK
double-byte encoding, so the claimed shared decoder does not exist: on
the GBK bytes of 中 (`D6 D0`, invalid UTF-8), `parse_text` decodes via
gbk while `parse_markdown` falls through to latin-1 mojibake. -/
theorem markdown_no_cjk_counterexample :
    (∀ e ∈ mdEncodings, isCJKDoubleByte e = false) ∧
    isCJKDoubleByte Encoding.gbk = true ∧
    parse_markdown [0xD6, 0xD0] = ('Ö' :: 'Ð' :: []) ∧
    parse_text [0xD6, 0xD0] = ('中' :: []) ∧
    parse_markdown [0xD6, 0xD0] ≠ parse_text [0xD6, 0xD0] := by decide

/-- C5 (amended): only the plain-text path's candidate list contains a
CJK double-byte encoding (gbk, besides gb2312 and big5); the markdown
path tries UTF-8, UTF-8-with-signature and the single-byte Western
encodings only.  In both paths the first candidate that decodes the
buffer is accepted and the result is stripped; the lossy UTF-8 terminal
fallback is present in both but (per the unreachability theorem) never
taken. -/
theorem decoder_candidate_lists (bs : Bytes) :
    (Encoding.utf8 ∈ txtEncodings ∧ Encoding.utf8sig ∈ txtEncodings ∧
     Encoding.gbk ∈ txtEncodings ∧ Encoding.latin1 ∈ txtEncodings ∧
     Encoding.utf8 ∈ mdEncodings ∧ Encoding.utf8sig ∈ mdEncodings ∧
     Encoding.latin1 ∈ mdEncodings ∧ Encoding.cp1252 ∈ mdEncodings ∧
     (∀ e ∈ mdEncodings, isCJKDoubleByte e = false)) ∧
    (∀ s, decodeUtf8 bs = some s →
      parse_markdown bs = pyStrip s ∧ parse_text bs = pyStrip s) ∧
    (∀ s, decodeUtf8 bs = none → decodeUtf8Sig bs = none →
      decodeWith Encoding.gbk bs = some s → parse_text bs = pyStrip s) := by
  refine ⟨by decide, ?_, ?_⟩
  · intro s h
    have hmd : firstDecode mdEncodings bs = some s := by
      unfold mdEncodings firstDecode
      rw [show decodeWith Encoding.utf8 bs = decodeUtf8 bs from rfl, h]
    have htxt : firstDecode txtEncodings bs = some s := by
      unfold txtEncodings firstDecode
      rw [show decodeWith Encoding.utf8 bs = decodeUtf8 bs from rfl, h]
    constructor
    · unfold parse_markdown
      rw [hmd]
    · unfold parse_text
      rw [htxt]
  · intro s h8 hsig hg
    have htxt : firstDecode txtEncodings bs = some s :=
      firstDecode_txt_gbk h8 hsig hg
    unfold parse_text
    rw [htxt]

/-- Witness for the amended C5: an ASCII buffer decodes identically in
both paths via UTF-8, and the GBK bytes of 中 decode via gbk in the
plain-text path. -/
theorem decoder_candidate_lists_witness :
    parse_markdown [0x68, 0x69] = pyStrip ('h' :: 'i' :: []) ∧
    parse_text [0xD6, 0xD0] = pyStrip ('中' :: []) :=
  ⟨((decoder_candidate_lists [0x68, 0x69]).2.1 ('h' :: 'i' :: []) (by decide)).1,
   (decoder_candidate_lists [0xD6, 0xD0]).2.2 ('中' :: [])
     (by decide) (by decide) (by decide)⟩

/-- C8 (counterexample): the universal GBK round-trip fails — encoding
小 in GBK yields `D0 A1`, which is also valid UTF-8, so the earlier
UTF-8 candidate wins and `parse_text` returns С (U+0421) instead of the
original character, although 小 is unaffected by trimming. -/
theorem gbk_roundtrip_counterexample :
    encodeGbk ('小' :: []) = some [0xD0, 0xA1] ∧
    decodeUtf8 [0xD0, 0xA1] = some ('С' :: []) ∧
    parse_text [0xD0, 0xA1] = ('С' :: []) ∧
    pyStrip ('小' :: []) = ('小' :: []) ∧
    parse_text [0xD0, 0xA1] ≠ ('小' :: []) := by decide

/-- C8 (amended): the GBK round-trip holds exactly when no earlier
candidate claims the bytes — if the GBK encoding of a string is not
decodable as UTF-8 (plain or with signature), `parse_text` recovers the
original string modulo stripping; and `parse_text` is total, the decode
loop always succeeding before the lossy fallback. -/
theorem gbk_roundtrip_amended :
    (∀ (s : PyStr) (bs : Bytes), encodeGbk s = some bs →
      decodeUtf8 bs = none → decodeUtf8Sig bs = none →
      parse_text bs = pyStrip s) ∧
    (∀ bs : Bytes, (firstDecode txtEncodings bs).isSome = true) := by
  constructor
  · intro s bs henc h8 hsig
    have hdec : decodeTable gbkTable bs = some s :=
      decode_encodeTable gbkTable_good s bs henc
    have htxt : firstDecode txtEncodings bs = some s :=
      firstDecode_txt_gbk h8 hsig hdec
    unfold parse_text
    rw [htxt]
  · intro bs
    exact firstDecode_isSome_of_mem (e := Encoding.latin1) (by decide) rfl

/-- Witness for the amended C8: 中 in GBK is `D6 D0`, which is invalid
UTF-8, and `parse_text` recovers it. -/
theorem gbk_roundtrip_amended_witness :
    parse_text [0xD6, 0xD0] = pyStrip ('中' :: []) :=
  gbk_roundtrip_amended.1 ('中' :: []) [0xD6, 0xD0]
    (by decide) (by decide) (by decide)

end FileParser
